import Mathlib

/-!
Shallow embedding of `src/index.ts` of the video-captions-review-service.

Modelling conventions:
* JavaScript numbers are modelled exactly: integer ids as `ℤ`/`ℕ`, general
  `number` values as the inductive `JSNum` (`NaN`, the two infinities, and a
  finite value carried as an exact rational).  Float rounding is not modelled;
  every concrete value exercised by the claims is exactly representable in
  binary64, so the rational computation agrees with the JavaScript one there.
* `node:crypto`'s `createHmac("sha256", _)` is embedded as a full, executable
  implementation of SHA-256 and HMAC over byte lists (`List ℕ`, each < 256),
  and `digest("hex")` as the lowercase hexadecimal encoder `hexEncode`.
* Strings are Lean `String`s; `String(n)`, `Number(s)`, `split("-")`,
  `padStart` and the regular-expression match of `parseYouTubeId` are embedded
  by the executable functions below.
-/

attribute [local semireducible] Rat.mul Rat.inv Rat.add Rat.sub Rat.ofScientific

namespace VCRS

/-! ## Small string helpers (JS `padStart`, decimal printing) -/

/-- The character for decimal digit `n` (`0 ≤ n ≤ 9`). -/
def digitChar (n : ℕ) : Char := Char.ofNat (48 + n)

/-- `c` is an ASCII decimal digit. -/
def isDigitCh (c : Char) : Bool := decide ('0' ≤ c) && decide (c ≤ '9')

/-- Decimal digit list of `n`, most significant first (fuelled recursion). -/
def natDigitsAux : ℕ → ℕ → List Char
  | 0, _ => []
  | fuel + 1, n =>
    if n < 10 then [digitChar n]
    else natDigitsAux fuel (n / 10) ++ [digitChar (n % 10)]

/-- Decimal digit list of `n`, most significant first. -/
def natDigits (n : ℕ) : List Char := natDigitsAux (n + 1) n

/-- Decimal string of a natural number, as JS `String(n)` for `n ≥ 0`. -/
def natToString (n : ℕ) : String := ⟨natDigits n⟩

/-- Decimal string of an integer, as JS `String(n)` for safe integers. -/
def intToString (z : ℤ) : String :=
  if z < 0 then "-" ++ natToString z.natAbs else natToString z.natAbs

/-- Value of a decimal digit list (`foldl`, most significant first). -/
def digitsVal (ds : List Char) : ℕ := ds.foldl (fun a c => 10 * a + (c.toNat - 48)) 0

/-- JS `s.padStart(n, c)`: left-pad `s` with `c` up to length `n`. -/
def padStart (n : ℕ) (c : Char) (s : String) : String :=
  ⟨List.replicate (n - s.data.length) c ++ s.data⟩

/-! ## SHA-256 (FIPS 180-4), over byte lists -/

/-- Truncation to a 32-bit word. -/
def w32 (n : ℕ) : ℕ := n % 4294967296

/-- Right rotation of a 32-bit word by `k`. -/
def rotr (k n : ℕ) : ℕ := w32 ((n >>> k) ||| (n <<< (32 - k)))

/-- SHA-256 Σ₀. -/
def bsig0 (x : ℕ) : ℕ := rotr 2 x ^^^ rotr 13 x ^^^ rotr 22 x

/-- SHA-256 Σ₁. -/
def bsig1 (x : ℕ) : ℕ := rotr 6 x ^^^ rotr 11 x ^^^ rotr 25 x

/-- SHA-256 σ₀. -/
def ssig0 (x : ℕ) : ℕ := rotr 7 x ^^^ rotr 18 x ^^^ (x >>> 3)

/-- SHA-256 σ₁. -/
def ssig1 (x : ℕ) : ℕ := rotr 17 x ^^^ rotr 19 x ^^^ (x >>> 10)

/-- SHA-256 Ch (bitwise not taken as xor with 2³² − 1). -/
def chF (x y z : ℕ) : ℕ := (x &&& y) ^^^ ((x ^^^ 4294967295) &&& z)

/-- SHA-256 Maj. -/
def majF (x y z : ℕ) : ℕ := (x &&& y) ^^^ (x &&& z) ^^^ (y &&& z)

/-- The 64 SHA-256 round constants. -/
def sha256K : List ℕ :=
  [1116352408, 1899447441, 3049323471, 3921009573, 961987163, 1508970993,
   2453635748, 2870763221, 3624381080, 310598401, 607225278, 1426881987,
   1925078388, 2162078206, 2614888103, 3248222580, 3835390401, 4022224774,
   264347078, 604807628, 770255983, 1249150122, 1555081692, 1996064986,
   2554220882, 2821834349, 2952996808, 3210313671, 3336571891, 3584528711,
   113926993, 338241895, 666307205, 773529912, 1294757372, 1396182291,
   1695183700, 1986661051, 2177026350, 2456956037, 2730485921, 2820302411,
   3259730800, 3345764771, 3516065817, 3600352804, 4094571909, 275423344,
   430227734, 506948616, 659060556, 883997877, 958139571, 1322822218,
   1537002063, 1747873779, 1955562222, 2024104815, 2227730452, 2361852424,
   2428436474, 2756734187, 3204031479, 3329325298]

/-- SHA-256 working state: eight 32-bit words. -/
structure Sha8 where
  a : ℕ
  b : ℕ
  c : ℕ
  d : ℕ
  e : ℕ
  f : ℕ
  g : ℕ
  h : ℕ
deriving DecidableEq

/-- SHA-256 initial hash value. -/
def sha256H0 : Sha8 :=
  ⟨1779033703, 3144134277, 1013904242, 2773480762,
   1359893119, 2600822924, 528734635, 1541459225⟩

/-- One SHA-256 round, consuming a pair (round constant, schedule word). -/
def sha256Step (s : Sha8) (kw : ℕ × ℕ) : Sha8 :=
  let t1 := w32 (s.h + bsig1 s.e + chF s.e s.f s.g + kw.1 + kw.2)
  let t2 := w32 (bsig0 s.a + majF s.a s.b s.c)
  ⟨w32 (t1 + t2), s.a, s.b, s.c, w32 (s.d + t1), s.e, s.f, s.g⟩

/-- Extend the 16-word block schedule by `fuel` further words. -/
def extendW : ℕ → List ℕ → List ℕ
  | 0, ws => ws
  | fuel + 1, ws =>
    let l := ws.length
    extendW fuel (ws ++ [w32 (ssig1 (ws.getD (l - 2) 0) + ws.getD (l - 7) 0 +
      ssig0 (ws.getD (l - 15) 0) + ws.getD (l - 16) 0)])

/-- SHA-256 compression of one 16-word block into the chaining value. -/
def sha256Compress (hs : Sha8) (block : List ℕ) : Sha8 :=
  let ws := extendW 48 block
  let s := (sha256K.zip ws).foldl sha256Step hs
  ⟨w32 (hs.a + s.a), w32 (hs.b + s.b), w32 (hs.c + s.c), w32 (hs.d + s.d),
   w32 (hs.e + s.e), w32 (hs.f + s.f), w32 (hs.g + s.g), w32 (hs.h + s.h)⟩

/-- SHA-256 padding: append `0x80`, zeros, and the 64-bit bit length. -/
def padMsg (msg : List ℕ) : List ℕ :=
  let L := msg.length
  msg ++ [128] ++ List.replicate ((119 - L % 64) % 64) 0 ++
    (List.range 8).map (fun i => ((8 * L) >>> (56 - 8 * i)) % 256)

/-- Split a byte list into chunks of `k` bytes (fuelled). -/
def chunksAux (k : ℕ) : ℕ → List ℕ → List (List ℕ)
  | 0, _ => []
  | _, [] => []
  | fuel + 1, l => l.take k :: chunksAux k fuel (l.drop k)

/-- Split a byte list into chunks of `k` bytes. -/
def chunks (k : ℕ) (l : List ℕ) : List (List ℕ) := chunksAux k l.length l

/-- Big-endian 32-bit words from bytes. -/
def bytesToWords (bs : List ℕ) : List ℕ :=
  (chunks 4 bs).map (fun c => c.foldl (fun a b => 256 * a + b) 0)

/-- Big-endian bytes of a 32-bit word. -/
def wordBytes (w : ℕ) : List ℕ := [(w >>> 24) % 256, (w >>> 16) % 256, (w >>> 8) % 256, w % 256]

/-- SHA-256 digest (32 bytes) of a byte list. -/
def sha256 (msg : List ℕ) : List ℕ :=
  let hfin := (chunks 64 (padMsg msg)).foldl
    (fun h b => sha256Compress h (bytesToWords b)) sha256H0
  [hfin.a, hfin.b, hfin.c, hfin.d, hfin.e, hfin.f, hfin.g, hfin.h].flatMap wordBytes

/-- HMAC-SHA-256 (RFC 2104) of `msg` under `key`, both byte lists. -/
def hmacSha256 (key msg : List ℕ) : List ℕ :=
  let k0 := if key.length > 64 then sha256 key else key
  let kp := k0 ++ List.replicate (64 - k0.length) 0
  sha256 ((kp.map (fun b => b ^^^ 92)) ++ sha256 ((kp.map (fun b => b ^^^ 54)) ++ msg))

/-- Lowercase hexadecimal character for `n < 16`. -/
def hexChar (n : ℕ) : Char := Char.ofNat (if n < 10 then 48 + n else 87 + n)

/-- Character list of the lowercase hexadecimal encoding of a byte list. -/
def hexChars (bs : List ℕ) : List Char :=
  bs.flatMap (fun b => [hexChar (b / 16 % 16), hexChar (b % 16)])

/-- Lowercase hexadecimal encoding of a byte list (Node `digest("hex")`). -/
def hexEncode (bs : List ℕ) : String := ⟨hexChars bs⟩

/-- UTF-8 bytes of a character. -/
def utf8Bytes (c : Char) : List ℕ :=
  let n := c.toNat
  if n < 128 then [n]
  else if n < 2048 then [192 + n / 64, 128 + n % 64]
  else if n < 65536 then [224 + n / 4096, 128 + n / 64 % 64, 128 + n % 64]
  else [240 + n / 262144, 128 + n / 4096 % 64, 128 + n / 64 % 64, 128 + n % 64]

/-- UTF-8 bytes of a string (as `hmac.update` consumes it). -/
def strBytes (s : String) : List ℕ := s.data.flatMap utf8Bytes


/-! ## JavaScript numbers: `Number(string)` and `String(number)`

A JS `number` is modelled exactly: `NaN`, the infinities, or a finite value
carried as a rational.  `jsToNumber` embeds the `Number(_)` coercion
(`ToNumber` applied to a string: trimmed, empty ↦ 0, decimal / hex / octal /
binary / `Infinity` literals, anything else ↦ `NaN`); values are exact
rationals, so binary64 rounding of long literals is not modelled (irrelevant
to the inputs exercised here).  `jsNumToString` embeds `String(_)` on the
values the service produces (safe integers, terminating decimals, `NaN`,
infinities); the exponent notation JS uses for `|x| ≥ 1e21` is not modelled. -/

/-- A JavaScript number: `NaN`, `±Infinity`, or an exact finite value. -/
inductive JSNum where
  | nan : JSNum
  | inf : JSNum
  | ninf : JSNum
  | fin (q : ℚ) : JSNum
deriving DecidableEq

/-- JS unary minus on numbers. -/
def jsNeg : JSNum → JSNum
  | .nan => .nan
  | .inf => .ninf
  | .ninf => .inf
  | .fin q => .fin (-q)

/-- JS whitespace accepted around numeric strings (ASCII part + NBSP + BOM). -/
def jsWsChar (c : Char) : Bool :=
  c == ' ' || c == Char.ofNat 9 || c == Char.ofNat 10 || c == Char.ofNat 11 ||
  c == Char.ofNat 12 || c == Char.ofNat 13 || c == Char.ofNat 160 || c == Char.ofNat 65279

/-- Trim JS whitespace from both ends. -/
def trimWs (cs : List Char) : List Char :=
  ((cs.dropWhile jsWsChar).reverse.dropWhile jsWsChar).reverse

/-- Apply an exponent part `ds` (digit list) to `v`, with sign `neg`. -/
def expApply (v : ℚ) (neg : Bool) (ds : List Char) : Option ℚ :=
  if ds ≠ [] ∧ ds.all isDigitCh then
    some (if neg then v / 10 ^ digitsVal ds else v * 10 ^ digitsVal ds)
  else none

/-- Parse an optional exponent part; the whole rest must be consumed. -/
def withExp (v : ℚ) : List Char → Option ℚ
  | [] => some v
  | e :: r2 =>
    if e == 'e' || e == 'E' then
      match r2 with
      | [] => expApply v false []
      | c :: r3 =>
        if c = '+' then expApply v false r3
        else if c = '-' then expApply v true r3
        else expApply v false r2
    else none

/-- Parse `StrUnsignedDecimalLiteral` without the `Infinity` production. -/
def parseUnsigned (cs : List Char) : Option ℚ :=
  let p := cs.span isDigitCh
  match p.2 with
  | [] => if p.1 = [] then none else withExp (digitsVal p.1) []
  | c :: r2 =>
    if c = '.' then
      let f := r2.span isDigitCh
      if p.1 = [] ∧ f.1 = [] then none
      else withExp ((digitsVal p.1 : ℚ) + (digitsVal f.1 : ℚ) / 10 ^ f.1.length) f.2
    else if p.1 = [] then none else withExp (digitsVal p.1) p.2

/-- Value of a hex / octal / binary digit character. -/
def radixVal (c : Char) : ℕ :=
  if c.toNat ≥ 97 then c.toNat - 87 else if c.toNat ≥ 65 then c.toNat - 55 else c.toNat - 48

/-- Hexadecimal digit character. -/
def isHexDigitCh (c : Char) : Bool :=
  isDigitCh c || (decide ('a' ≤ c) && decide (c ≤ 'f')) ||
  (decide ('A' ≤ c) && decide (c ≤ 'F'))

/-- Octal digit character. -/
def isOctDigitCh (c : Char) : Bool := decide ('0' ≤ c) && decide (c ≤ '7')

/-- Binary digit character. -/
def isBinDigitCh (c : Char) : Bool := c == '0' || c == '1'

/-- Parse a non-empty all-`ok` digit list in the given radix. -/
def parseRadixDigits (radix : ℕ) (ok : Char → Bool) (ds : List Char) : Option ℚ :=
  if ds ≠ [] ∧ ds.all ok then
    some ((ds.foldl (fun a c => radix * a + radixVal c) 0 : ℕ) : ℚ)
  else none

/-- Unsigned decimal literal or `Infinity`; otherwise `NaN`. -/
def decUnsigned (cs : List Char) : JSNum :=
  if cs = "Infinity".data then .inf
  else match parseUnsigned cs with
    | some v => .fin v
    | none => .nan

/-- Optionally signed decimal literal. -/
def decSigned (cs : List Char) : JSNum :=
  match cs with
  | [] => decUnsigned []
  | c :: r =>
    if c = '+' then decUnsigned r
    else if c = '-' then jsNeg (decUnsigned r)
    else decUnsigned cs

/-- A non-decimal integer literal: `0x…`, `0o…` or `0b…`. -/
def nonDecLit (cs : List Char) : Option JSNum :=
  match cs with
  | c0 :: c :: rest =>
    if c0 = '0' then
      if c == 'x' || c == 'X' then
        some (match parseRadixDigits 16 isHexDigitCh rest with
          | some v => .fin v
          | none => .nan)
      else if c == 'o' || c == 'O' then
        some (match parseRadixDigits 8 isOctDigitCh rest with
          | some v => .fin v
          | none => .nan)
      else if c == 'b' || c == 'B' then
        some (match parseRadixDigits 2 isBinDigitCh rest with
          | some v => .fin v
          | none => .nan)
      else none
    else none
  | _ => none

/-- The JS `Number(s)` coercion of a string. -/
def jsToNumber (s : String) : JSNum :=
  match trimWs s.data with
  | [] => .fin 0
  | c :: cs =>
    match nonDecLit (c :: cs) with
    | some v => v
    | none => decSigned (c :: cs)

/-- Shortest terminating decimal representation of a rational, as JS
`String(_)` prints the finite values arising here (integers and terminating
decimals; minimality of the digit count matches JS dropping trailing zeros). -/
def ratDecRepr (q : ℚ) : String :=
  match (List.range 401).find? (fun k => (q * 10 ^ k).den == 1) with
  | none => "?"
  | some k =>
    let n : ℤ := (q * 10 ^ k).num
    if k = 0 then intToString n
    else
      let ds := (padStart (k + 1) '0' (natToString n.natAbs)).data
      (if n < 0 then "-" else "") ++ (⟨ds.take (ds.length - k)⟩ : String) ++ "." ++
        (⟨ds.drop (ds.length - k)⟩ : String)

/-- The JS `String(n)` coercion of a number. -/
def jsNumToString : JSNum → String
  | .nan => "NaN"
  | .inf => "Infinity"
  | .ninf => "-Infinity"
  | .fin q => ratDecRepr q

/-- Truncation toward zero, as JS `%` uses for its implied quotient. -/
def jsTrunc (q : ℚ) : ℤ := if 0 ≤ q then ⌊q⌋ else -⌊-q⌋

/-- JS `a % b` on finite numbers (`b ≠ 0`): remainder with the dividend's
sign.  (`b = 0` would give `NaN` in JS; the source only uses 3600, 60, 1000.) -/
def jsMod (a b : ℚ) : ℚ := a - b * jsTrunc (a / b)

/-! ## Embedding of the source functions (`src/index.ts`) -/

/-- `formatTime` (src/index.ts:45-59): format `t` seconds as
`HH:MM:SS.mmm` using `Math.floor`, JS `%`, `toString` and `padStart`. -/
def formatTime (t : ℚ) : String :=
  padStart 2 '0' (intToString ⌊t / 3600⌋) ++ ":" ++
  padStart 2 '0' (intToString ⌊jsMod t 3600 / 60⌋) ++ ":" ++
  padStart 2 '0' (intToString ⌊jsMod t 60⌋) ++ "." ++
  padStart 3 '0' (intToString ⌊jsMod (t * 1000) 1000⌋)

/-- JS `s.split("-")` on the character list of `s`. -/
def splitDash : List Char → List (List Char)
  | [] => [[]]
  | c :: cs =>
    if c = '-' then [] :: splitDash cs
    else
      match splitDash cs with
      | [] => [[c]]
      | p :: ps => (c :: p) :: ps

/-- The signature component minted for message `msg` under `secret`:
`createHmac("sha256", secret).update(msg).digest("hex")`. -/
def flagSig (secret msg : String) : String :=
  hexEncode (hmacSha256 (strBytes secret) (strBytes msg))

/-- `createFlagId` (src/index.ts:35-43): `none` models the throw on a
missing/empty `FLAG_SECRET`; otherwise the token
`flag-${id}-${hmac.digest("hex")}` over `String(id)`. -/
def createFlagId (secret : String) (id : JSNum) : Option String :=
  if secret = "" then none
  else some ("flag-" ++ jsNumToString id ++ "-" ++ flagSig secret (jsNumToString id))

/-- `grist.deleteRecords("Flags", [n])`: remove the rows whose id equals `n`. -/
def jsDeleteRecords (st : List ℚ) (n : JSNum) : List ℚ :=
  st.filter (fun r => !(JSNum.fin r == n))

/-- The DELETE `/flags/...` handler body (src/index.ts:137-144) acting on a
record store `st` of row ids: split the flag id on `-`, coerce part 1 with
`Number`, recompute `createFlagId` and compare its part 2 with the presented
part 2 (`Option` equality models the JS `!==` against a possibly-`undefined`
destructured part); on success delete `Number(id)`.  The first component is
`true` iff the request returned `{ ok: true }`; the second is the store
afterwards. -/
def deleteFlagHandler (secret flagId : String) (st : List ℚ) : Bool × List ℚ :=
  let parts := splitDash flagId.data
  let idNum : JSNum :=
    match parts[1]? with
    | none => .nan
    | some cs => jsToNumber ⟨cs⟩
  match createFlagId secret idNum with
  | none => (false, st)
  | some tok =>
    if parts[2]? = (splitDash tok.data)[2]? then (true, jsDeleteRecords st idNum)
    else (false, st)

/-- The DELETE route (src/index.ts:135-153): receives the `event`, `slug`
and `lang` path parameters as well, but its body reads only `params.flagId`. -/
def deleteRoute (secret event slug lang flagId : String) (st : List ℚ) : Bool × List ℚ :=
  deleteFlagHandler secret flagId st

/-- The row the POST `/flags/...` handler stores (src/index.ts:114-120). -/
structure FlagRow where
  vtt : String
  timestamp : String
  text : String
deriving DecidableEq

/-- The record inserted by the POST handler for body
`{ timestamp, text }` (milliseconds): `timestamp: formatTime(body.timestamp / 1000)`. -/
def postFlagRow (event slug lang : String) (timestampMs : ℚ) (text : String) : FlagRow :=
  ⟨event ++ "/" ++ slug ++ "_" ++ lang ++ ".vtt", formatTime (timestampMs / 1000), text⟩

/-! ## `parseYouTubeId` (src/index.ts:27-33)

The regular expression `/youtube:\s*["']?([a-zA-Z0-9_-]+)/` is embedded as a
deterministic matcher.  `\s*` is taken maximal: backtracking it can never
succeed, because a shorter match leaves a whitespace character in front,
which is neither a quote nor a word character.  The optional quote keeps its
backtracking (`Option.orElse`); the fallback alternative always fails, a
quote not being a word character. -/

/-- Word characters of the capture class `[a-zA-Z0-9_-]`. -/
def isWordChar (c : Char) : Bool :=
  (decide ('a' ≤ c) && decide (c ≤ 'z')) || (decide ('A' ≤ c) && decide (c ≤ 'Z')) ||
  isDigitCh c || c == '_' || c == '-'

/-- Strip a literal character list from the front. -/
def stripLit : List Char → List Char → Option (List Char)
  | [], cs => some cs
  | _ :: _, [] => none
  | p :: ps, c :: cs => if c = p then stripLit ps cs else none

/-- The literal key `youtube:`. -/
def youtubeKey : List Char := "youtube:".data

/-- `([a-zA-Z0-9_-]+)`: the maximal non-empty word-character run in front. -/
def tokenAt (l : List Char) : Option (List Char) :=
  let t := l.takeWhile isWordChar
  if t = [] then none else some t

/-- Try the regular expression at the current position. -/
def matchYtAt (cs : List Char) : Option (List Char) :=
  match stripLit youtubeKey cs with
  | none => none
  | some r =>
    let r2 := r.dropWhile jsWsChar
    match r2 with
    | [] => none
    | c :: r3 =>
      if c = Char.ofNat 34 ∨ c = Char.ofNat 39 then
        (tokenAt r3).orElse (fun _ => tokenAt r2)
      else tokenAt r2

/-- First match of the regular expression, scanning start positions left to
right as `String.prototype.match` does. -/
def findYt : List Char → Option (List Char)
  | [] => none
  | c :: cs =>
    match matchYtAt (c :: cs) with
    | some t => some t
    | none => findYt cs

/-- `parseYouTubeId`: capture group 1 of the first match, or the thrown
`Error("YouTube ID not found in content")`. -/
def parseYouTubeId (content : String) : Except String String :=
  match findYt content.data with
  | some t => .ok ⟨t⟩
  | none => .error "YouTube ID not found in content"

/-! ## Predicates used by the statements below -/

/-- Lowercase hexadecimal character (`[0-9a-f]`). -/
def isLowerHexCh (c : Char) : Bool :=
  isDigitCh c || (decide ('a' ≤ c) && decide (c ≤ 'f'))

/-- No `-` occurs in the character list. -/
def dashFree (cs : List Char) : Bool := cs.all (fun c => !(c == '-'))

/-- Character-list version of `isTimeShape`. -/
def isTimeShapeL (l : List Char) : Bool :=
  let p := l.span isDigitCh
  decide (2 ≤ p.1.length) &&
    match p.2 with
    | c1 :: m1 :: m2 :: c2 :: s1 :: s2 :: c3 :: x1 :: x2 :: x3 :: [] =>
      c1 == ':' && isDigitCh m1 && isDigitCh m2 && c2 == ':' && isDigitCh s1 &&
      isDigitCh s2 && c3 == '.' && isDigitCh x1 && isDigitCh x2 && isDigitCh x3
    | _ => false

/-- The string has the shape `H⁺:MM:SS.mmm`: a run of at least two decimal
digits, `:`, two digits, `:`, two digits, `.`, three digits.  Every such
string is a non-negative formatted time. -/
def isTimeShape (s : String) : Bool := isTimeShapeL s.data

/-- The string is exactly two decimal digits. -/
def twoDigitsB (s : String) : Bool :=
  match s.data with
  | [a, b] => isDigitCh a && isDigitCh b
  | _ => false

/-- The string is exactly three decimal digits. -/
def threeDigitsB (s : String) : Bool :=
  match s.data with
  | [a, b, c] => isDigitCh a && isDigitCh b && isDigitCh c
  | _ => false

/-- The literal `pat` occurs at the front of `l`. -/
def litAt (pat l : List Char) : Bool := (stripLit pat l).isSome

/-- Some occurrence of `youtube:` starts in `l`. -/
def hasYtKey : List Char → Bool
  | [] => false
  | c :: cs => litAt youtubeKey (c :: cs) || hasYtKey cs

set_option maxRecDepth 20000 in
/-- Fidelity anchor: the FIPS 180-4 test vector for `sha256("abc")`. -/
theorem sha256_test_vector :
    hexEncode (sha256 (strBytes "abc")) =
      "ba7816bf8f01cfea414140de5dae2223b00361a396177a9cb410ff61f20015ad" := by
  decide

set_option maxRecDepth 20000 in
/-- Fidelity anchor: the RFC 4231 test case 2 for HMAC-SHA-256. -/
theorem hmacSha256_test_vector :
    hexEncode (hmacSha256 (strBytes "Jefe") (strBytes "what do ya want for nothing?")) =
      "5bdcc146bf60754e6a042426089575c75a003f089d2739839dec58b964ec3843" := by
  decide

/-! ## Character facts -/

theorem digit_beq_false {c d : Char} (h : isDigitCh c = true) (hd : isDigitCh d = false) :
    (c == d) = false := by
  cases hcd : c == d with
  | false => rfl
  | true =>
    have : c = d := by simpa using hcd
    subst this
    rw [h] at hd
    exact absurd hd (by simp)

theorem digit_ne {c d : Char} (h : isDigitCh c = true) (hd : isDigitCh d = false) : c ≠ d := by
  intro he
  subst he
  rw [h] at hd
  exact absurd hd (by simp)

theorem digit_not_ws {c : Char} (h : isDigitCh c = true) : jsWsChar c = false := by
  cases hw : jsWsChar c with
  | false => rfl
  | true =>
    simp only [jsWsChar, Bool.or_eq_true, beq_iff_eq] at hw
    rcases hw with ((((((rfl | rfl) | rfl) | rfl) | rfl) | rfl) | rfl) | rfl <;>
      exact absurd h (by decide)

theorem digitChar_is_digit : ∀ n, n < 10 → isDigitCh (digitChar n) = true := by decide

theorem digitChar_toNat : ∀ n, n < 10 → (digitChar n).toNat = 48 + n := by decide

/-! ## Decimal printing facts -/

theorem natDigitsAux_digits : ∀ (fuel n : ℕ), (natDigitsAux fuel n).all isDigitCh = true := by
  intro fuel
  induction fuel with
  | zero => intro n; rfl
  | succ f ih =>
    intro n
    unfold natDigitsAux
    by_cases h10 : n < 10
    · rw [if_pos h10]
      simp [digitChar_is_digit n h10]
    · rw [if_neg h10]
      simp only [List.all_append, Bool.and_eq_true]
      exact ⟨ih (n / 10), by simp [digitChar_is_digit (n % 10) (Nat.mod_lt n (by norm_num))]⟩

theorem natDigits_digits (n : ℕ) : (natDigits n).all isDigitCh = true :=
  natDigitsAux_digits (n + 1) n

theorem natDigits_ne_nil (n : ℕ) : natDigits n ≠ [] := by
  unfold natDigits natDigitsAux
  by_cases h10 : n < 10
  · rw [if_pos h10]; simp
  · rw [if_neg h10]; simp

theorem digitsVal_append_singleton (xs : List Char) (c : Char) :
    digitsVal (xs ++ [c]) = 10 * digitsVal xs + (c.toNat - 48) := by
  simp [digitsVal, List.foldl_append]

theorem digitsVal_natDigitsAux : ∀ (fuel n : ℕ), n < fuel → digitsVal (natDigitsAux fuel n) = n := by
  intro fuel
  induction fuel with
  | zero => intro n h; omega
  | succ f ih =>
    intro n h
    unfold natDigitsAux
    by_cases h10 : n < 10
    · rw [if_pos h10]
      simp [digitsVal, digitChar_toNat n h10]
    · rw [if_neg h10, digitsVal_append_singleton]
      have hdiv : n / 10 < f := by
        have := Nat.div_lt_self (show 0 < n by omega) (show 1 < 10 by norm_num)
        omega
      rw [ih (n / 10) hdiv, digitChar_toNat (n % 10) (Nat.mod_lt n (by norm_num))]
      omega

theorem digitsVal_natDigits (n : ℕ) : digitsVal (natDigits n) = n :=
  digitsVal_natDigitsAux (n + 1) n (Nat.lt_succ_self n)

theorem natToString_data (n : ℕ) : (natToString n).data = natDigits n := rfl

theorem intToString_nonneg (z : ℤ) (h : 0 ≤ z) : intToString z = natToString z.toNat := by
  unfold intToString
  rw [if_neg (by omega)]
  congr 1
  omega

/-! ## `padStart` facts -/

theorem padStart_data (n : ℕ) (c : Char) (s : String) :
    (padStart n c s).data = List.replicate (n - s.data.length) c ++ s.data := rfl

theorem padStart_all {p : Char → Bool} {c : Char} {s : String} (n : ℕ)
    (hc : p c = true) (hs : s.data.all p = true) : (padStart n c s).data.all p = true := by
  rw [padStart_data]
  simp only [List.all_append, Bool.and_eq_true]
  refine ⟨?_, hs⟩
  simp only [List.all_eq_true]
  intro x hx
  rw [List.eq_of_mem_replicate hx]
  exact hc

theorem padStart_length (n : ℕ) (c : Char) (s : String) :
    (padStart n c s).data.length = max n s.data.length := by
  rw [padStart_data]
  simp [List.length_append, List.length_replicate]
  omega

/-! ## Hexadecimal facts -/

theorem hexChar_lowerHex : ∀ k, k < 16 → isLowerHexCh (hexChar k) = true := by decide

theorem hexEncode_data (bs : List ℕ) : (hexEncode bs).data = hexChars bs := rfl

theorem hexChars_all (bs : List ℕ) : (hexChars bs).all isLowerHexCh = true := by
  induction bs with
  | nil => rfl
  | cons b bs ih =>
    rw [hexChars, List.flatMap_cons]
    simp only [List.all_append, Bool.and_eq_true]
    refine ⟨?_, ih⟩
    simp [hexChar_lowerHex (b / 16 % 16) (Nat.mod_lt _ (by norm_num)),
      hexChar_lowerHex (b % 16) (Nat.mod_lt _ (by norm_num))]

theorem hexChars_length (bs : List ℕ) : (hexChars bs).length = 2 * bs.length := by
  induction bs with
  | nil => rfl
  | cons b bs ih =>
    rw [hexChars, List.flatMap_cons]
    simp only [List.length_append, List.length_cons]
    rw [hexChars] at ih
    rw [ih]
    simp
    omega

theorem lowerHex_not_dash {c : Char} (h : isLowerHexCh c = true) : (c == '-') = false := by
  cases hcd : c == '-' with
  | false => rfl
  | true =>
    have : c = '-' := by simpa using hcd
    subst this
    exact absurd h (by decide)

theorem dashFree_of_lowerHex {cs : List Char} (h : cs.all isLowerHexCh = true) :
    dashFree cs = true := by
  simp only [dashFree, List.all_eq_true] at *
  intro c hc
  simpa using lowerHex_not_dash (h c hc)

theorem dashFree_of_digits {cs : List Char} (h : cs.all isDigitCh = true) :
    dashFree cs = true := by
  simp only [dashFree, List.all_eq_true] at *
  intro c hc
  simpa using digit_beq_false (h c hc) (show isDigitCh '-' = false by decide)

/-! ## `split("-")` facts -/

theorem splitDash_dashFree (cs : List Char) (h : dashFree cs = true) : splitDash cs = [cs] := by
  induction cs with
  | nil => rfl
  | cons c cs ih =>
    simp only [dashFree, List.all_cons, Bool.and_eq_true, Bool.not_eq_true'] at h
    rw [splitDash, if_neg (by simpa using h.1), ih (by simpa [dashFree] using h.2)]

theorem splitDash_append (a rest : List Char) (h : dashFree a = true) :
    splitDash (a ++ '-' :: rest) = a :: splitDash rest := by
  induction a with
  | nil =>
    show splitDash ('-' :: rest) = [] :: splitDash rest
    rw [splitDash, if_pos rfl]
  | cons c a ih =>
    simp only [dashFree, List.all_cons, Bool.and_eq_true, Bool.not_eq_true'] at h
    show splitDash (c :: (a ++ '-' :: rest)) = _
    rw [splitDash, if_neg (by simpa using h.1), ih (by simpa [dashFree] using h.2)]

theorem splitDash_three (idc sigc : List Char) (h1 : dashFree idc = true)
    (h2 : dashFree sigc = true) :
    splitDash ("flag".data ++ '-' :: (idc ++ '-' :: sigc)) = ["flag".data, idc, sigc] := by
  rw [splitDash_append _ _ (by decide), splitDash_append _ _ h1, splitDash_dashFree _ h2]

/-! ## Digest shape facts -/

theorem wordBytes_length (w : ℕ) : (wordBytes w).length = 4 := rfl

theorem sha256_length (msg : List ℕ) : (sha256 msg).length = 32 := by
  unfold sha256
  simp [wordBytes]

theorem hmacSha256_length (key msg : List ℕ) : (hmacSha256 key msg).length = 32 := by
  unfold hmacSha256
  exact sha256_length _

theorem flagSig_data (secret msg : String) :
    (flagSig secret msg).data = hexChars (hmacSha256 (strBytes secret) (strBytes msg)) := rfl

theorem flagSig_all_lowerHex (secret msg : String) :
    (flagSig secret msg).data.all isLowerHexCh = true := by
  rw [flagSig_data]
  exact hexChars_all _

theorem flagSig_dashFree (secret msg : String) : dashFree (flagSig secret msg).data = true :=
  dashFree_of_lowerHex (flagSig_all_lowerHex secret msg)

theorem flagSig_length (secret msg : String) : (flagSig secret msg).data.length = 64 := by
  rw [flagSig_data, hexChars_length, hmacSha256_length]

/-! ## Scanning facts (`takeWhile` / `dropWhile` / `span`) -/

theorem dropWhile_eq_self_of_all {p : Char → Bool} (l : List Char)
    (h : l.all (fun c => !(p c)) = true) : l.dropWhile p = l := by
  cases l with
  | nil => rfl
  | cons c cs =>
    simp only [List.all_cons, Bool.and_eq_true, Bool.not_eq_true'] at h
    rw [List.dropWhile_cons_of_neg (by simp [h.1])]

theorem takeWhile_eq_self_of_all {p : Char → Bool} (l : List Char)
    (h : l.all p = true) : l.takeWhile p = l := by
  induction l with
  | nil => rfl
  | cons c cs ih =>
    simp only [List.all_cons, Bool.and_eq_true] at h
    rw [List.takeWhile_cons_of_pos h.1, ih h.2]

theorem dropWhile_eq_nil_of_all {p : Char → Bool} (l : List Char)
    (h : l.all p = true) : l.dropWhile p = [] := by
  induction l with
  | nil => rfl
  | cons c cs ih =>
    simp only [List.all_cons, Bool.and_eq_true] at h
    rw [List.dropWhile_cons_of_pos h.1, ih h.2]

theorem trimWs_eq_self (cs : List Char) (h : cs.all (fun c => !(jsWsChar c)) = true) :
    trimWs cs = cs := by
  unfold trimWs
  rw [dropWhile_eq_self_of_all cs h, dropWhile_eq_self_of_all cs.reverse (by simpa using h),
    List.reverse_reverse]

theorem span_eq_of_all {p : Char → Bool} (l : List Char) (h : l.all p = true) :
    l.span p = (l, []) := by
  rw [List.span_eq_take_drop, takeWhile_eq_self_of_all l h,
    dropWhile_eq_nil_of_all l h]

theorem takeWhile_append_of_all {p : Char → Bool} (a : List Char) {c : Char} (b : List Char)
    (ha : a.all p = true) (hc : p c = false) : (a ++ c :: b).takeWhile p = a := by
  induction a with
  | nil =>
    show (c :: b).takeWhile p = []
    rw [List.takeWhile_cons_of_neg (by simp [hc])]
  | cons x a ih =>
    simp only [List.all_cons, Bool.and_eq_true] at ha
    rw [List.cons_append, List.takeWhile_cons_of_pos ha.1, ih ha.2]

theorem dropWhile_append_of_all {p : Char → Bool} (a : List Char) {c : Char} (b : List Char)
    (ha : a.all p = true) (hc : p c = false) : (a ++ c :: b).dropWhile p = c :: b := by
  induction a with
  | nil =>
    show (c :: b).dropWhile p = c :: b
    rw [List.dropWhile_cons_of_neg (by simp [hc])]
  | cons x a ih =>
    simp only [List.all_cons, Bool.and_eq_true] at ha
    rw [List.cons_append, List.dropWhile_cons_of_pos ha.1, ih ha.2]

theorem span_append_of_all {p : Char → Bool} (a : List Char) {c : Char} (b : List Char)
    (ha : a.all p = true) (hc : p c = false) : (a ++ c :: b).span p = (a, c :: b) := by
  rw [List.span_eq_take_drop, takeWhile_append_of_all a b ha hc,
    dropWhile_append_of_all a b ha hc]

/-! ## `Number(_)` on decimal digit strings -/

theorem all_not_ws_of_digits {ds : List Char} (h : ds.all isDigitCh = true) :
    ds.all (fun c => !(jsWsChar c)) = true := by
  simp only [List.all_eq_true] at *
  intro c hc
  simp [digit_not_ws (h c hc)]

theorem nonDecLit_digits (c : Char) (cs : List Char)
    (h : ((c :: cs).all isDigitCh) = true) : nonDecLit (c :: cs) = none := by
  simp only [List.all_cons, Bool.and_eq_true] at h
  cases cs with
  | nil => rfl
  | cons c1 rest =>
    simp only [List.all_cons, Bool.and_eq_true] at h
    rw [nonDecLit]
    by_cases h0 : c = '0'
    · rw [if_pos h0,
        if_neg (by simp [digit_beq_false h.2.1 (show isDigitCh 'x' = false by decide),
          digit_beq_false h.2.1 (show isDigitCh 'X' = false by decide)]),
        if_neg (by simp [digit_beq_false h.2.1 (show isDigitCh 'o' = false by decide),
          digit_beq_false h.2.1 (show isDigitCh 'O' = false by decide)]),
        if_neg (by simp [digit_beq_false h.2.1 (show isDigitCh 'b' = false by decide),
          digit_beq_false h.2.1 (show isDigitCh 'B' = false by decide)])]
    · rw [if_neg h0]

theorem decUnsigned_digits (ds : List Char) (hne : ds ≠ []) (h : ds.all isDigitCh = true) :
    decUnsigned ds = .fin (digitsVal ds : ℚ) := by
  unfold decUnsigned
  rw [if_neg (by
    intro he
    rw [he] at h
    exact absurd h (by decide))]
  unfold parseUnsigned
  simp only [span_eq_of_all ds h]
  rw [if_neg hne]
  rfl

theorem jsToNumber_digits (ds : List Char) (hne : ds ≠ []) (h : ds.all isDigitCh = true) :
    jsToNumber ⟨ds⟩ = .fin (digitsVal ds : ℚ) := by
  unfold jsToNumber
  rw [show (String.mk ds).data = ds from rfl, trimWs_eq_self ds (all_not_ws_of_digits h)]
  cases ds with
  | nil => exact absurd rfl hne
  | cons c cs =>
    simp only [List.all_cons, Bool.and_eq_true] at h
    show (match nonDecLit (c :: cs) with
      | some v => v
      | none => decSigned (c :: cs)) = JSNum.fin (digitsVal (c :: cs) : ℚ)
    rw [nonDecLit_digits c cs (by simp [h.1, h.2])]
    show decSigned (c :: cs) = _
    show (if c = '+' then decUnsigned cs
      else if c = '-' then jsNeg (decUnsigned cs)
      else decUnsigned (c :: cs)) = _
    rw [if_neg (digit_ne h.1 (show isDigitCh '+' = false by decide)),
      if_neg (digit_ne h.1 (show isDigitCh '-' = false by decide))]
    exact decUnsigned_digits (c :: cs) (by simp) (by simp [h.1, h.2])

theorem jsToNumber_natToString (n : ℕ) : jsToNumber (natToString n) = .fin (n : ℚ) := by
  have := jsToNumber_digits (natDigits n) (natDigits_ne_nil n) (natDigits_digits n)
  rw [digitsVal_natDigits] at this
  exact this

/-! ## `String(_)` on integers -/

theorem intToString_natCast (n : ℕ) : intToString (n : ℤ) = natToString n := by
  unfold intToString
  rw [if_neg (by omega)]
  simp

theorem ratDecRepr_int (z : ℤ) : ratDecRepr (z : ℚ) = intToString z := by
  unfold ratDecRepr
  rw [show (401 : ℕ) = 400 + 1 from rfl, List.range_succ_eq_map,
    show List.find? (fun k => ((z : ℚ) * 10 ^ k).den == 1)
        (0 :: List.map Nat.succ (List.range 400)) = some 0 from
      List.find?_cons_of_pos _ (by simp)]
  simp

theorem jsNumToString_intCast (z : ℤ) : jsNumToString (.fin (z : ℚ)) = intToString z :=
  ratDecRepr_int z

theorem jsNumToString_natCast (n : ℕ) : jsNumToString (.fin (n : ℚ)) = natToString n := by
  have h := ratDecRepr_int (n : ℤ)
  push_cast at h
  rw [intToString_natCast] at h
  exact h

/-! ## JS `%` bounds -/

theorem jsTrunc_of_nonneg {q : ℚ} (h : 0 ≤ q) : jsTrunc q = ⌊q⌋ := if_pos h

theorem jsMod_nonneg {a b : ℚ} (ha : 0 ≤ a) (hb : 0 < b) : 0 ≤ jsMod a b := by
  unfold jsMod
  rw [jsTrunc_of_nonneg (div_nonneg ha hb.le)]
  have := Int.sub_floor_div_mul_nonneg a hb
  linarith

theorem jsMod_lt {a b : ℚ} (ha : 0 ≤ a) (hb : 0 < b) : jsMod a b < b := by
  unfold jsMod
  rw [jsTrunc_of_nonneg (div_nonneg ha hb.le)]
  have := Int.sub_floor_div_mul_lt a hb
  linarith

/-! ## Token shape and the DELETE handler -/

theorem token_data (idStr sigStr : String) :
    ("flag-" ++ idStr ++ "-" ++ sigStr).data =
      "flag".data ++ '-' :: (idStr.data ++ '-' :: sigStr.data) := by
  simp only [String.data_append, List.append_assoc]
  rfl

theorem token_split (idStr sigStr : String) (h1 : dashFree idStr.data = true)
    (h2 : dashFree sigStr.data = true) :
    splitDash ("flag-" ++ idStr ++ "-" ++ sigStr).data =
      ["flag".data, idStr.data, sigStr.data] := by
  rw [token_data, splitDash_three idStr.data sigStr.data h1 h2]

theorem splitDash_ne_nil (l : List Char) : splitDash l ≠ [] := by
  cases l with
  | nil => simp [splitDash]
  | cons c cs =>
    rw [splitDash]
    by_cases h : c = '-'
    · rw [if_pos h]; simp
    · rw [if_neg h]
      cases hs : splitDash cs <;> simp

theorem splitDash_length_two (l : List Char) (h : '-' ∈ l) :
    2 ≤ (splitDash l).length := by
  induction l with
  | nil => simp at h
  | cons c cs ih =>
    rw [splitDash]
    by_cases hc : c = '-'
    · rw [if_pos hc]
      have := splitDash_ne_nil cs
      cases hs : splitDash cs with
      | nil => exact absurd hs this
      | cons p ps => simp
    · rw [if_neg hc]
      have hin : '-' ∈ cs := by
        rcases List.mem_cons.mp h with h1 | h1
        · exact absurd h1.symm hc
        · exact h1
      have h2 := ih hin
      cases hs : splitDash cs with
      | nil => exact absurd hs (splitDash_ne_nil cs)
      | cons p ps =>
        rw [hs] at h2
        simpa using h2

theorem deleteHandler_wellformed (secret idStr sigStr : String) (st : List ℚ)
    (hs : secret ≠ "") (h1 : dashFree idStr.data = true) (h2 : dashFree sigStr.data = true)
    (h3 : dashFree (jsNumToString (jsToNumber idStr)).data = true) :
    deleteFlagHandler secret ("flag-" ++ idStr ++ "-" ++ sigStr) st =
      if sigStr = flagSig secret (jsNumToString (jsToNumber idStr))
      then (true, jsDeleteRecords st (jsToNumber idStr))
      else (false, st) := by
  unfold deleteFlagHandler
  rw [token_split idStr sigStr h1 h2]
  show (match createFlagId secret (jsToNumber ⟨idStr.data⟩) with
    | none => (false, st)
    | some tok =>
      if (["flag".data, idStr.data, sigStr.data][2]? : Option (List Char)) =
          (splitDash tok.data)[2]?
      then (true, jsDeleteRecords st (jsToNumber ⟨idStr.data⟩))
      else (false, st)) = _
  have heta : (⟨idStr.data⟩ : String) = idStr := rfl
  rw [heta]
  unfold createFlagId
  rw [if_neg hs]
  show (if (["flag".data, idStr.data, sigStr.data][2]? : Option (List Char)) =
      (splitDash ("flag-" ++ jsNumToString (jsToNumber idStr) ++ "-" ++
        flagSig secret (jsNumToString (jsToNumber idStr))).data)[2]?
    then (true, jsDeleteRecords st (jsToNumber idStr))
    else (false, st)) = _
  rw [token_split _ _ h3 (flagSig_dashFree secret _)]
  by_cases hsig : sigStr = flagSig secret (jsNumToString (jsToNumber idStr))
  · rw [if_pos hsig, if_pos (by rw [hsig]; rfl)]
  · rw [if_neg hsig, if_neg (by
      intro he
      simp only [List.getElem?_cons_succ, List.getElem?_cons_zero, Option.some_inj] at he
      exact hsig (congrArg String.mk he))]

theorem createFlagId_some {secret : String} {n : JSNum} {tok : String}
    (h : createFlagId secret n = some tok) :
    tok = "flag-" ++ jsNumToString n ++ "-" ++ flagSig secret (jsNumToString n) := by
  unfold createFlagId at h
  by_cases hs : secret = ""
  · rw [if_pos hs] at h
    exact absurd h (by simp)
  · rw [if_neg hs] at h
    exact (Option.some_inj.mp h).symm

theorem splitDash_token_getElem2 (secret : String) (n : JSNum) :
    2 < (splitDash ("flag-" ++ jsNumToString n ++ "-" ++ flagSig secret (jsNumToString n)).data).length := by
  rw [token_data, splitDash_append _ _ (by decide)]
  have hmem : '-' ∈ (jsNumToString n).data ++ '-' :: (flagSig secret (jsNumToString n)).data :=
    List.mem_append_right _ (List.mem_cons_self _ _)
  have := splitDash_length_two _ hmem
  simp only [List.length_cons]
  omega

theorem deleteHandler_short (secret flagId : String) (st : List ℚ)
    (h : (splitDash flagId.data).length < 3) :
    deleteFlagHandler secret flagId st = (false, st) := by
  unfold deleteFlagHandler
  dsimp only
  have h2 : (splitDash flagId.data)[2]? = none := List.getElem?_eq_none (by omega)
  cases hc : createFlagId secret
      (match (splitDash flagId.data)[1]? with
        | none => JSNum.nan
        | some cs => jsToNumber ⟨cs⟩) with
  | none => rfl
  | some tok =>
    dsimp only
    rw [h2, if_neg (by
      intro he
      have h3 := splitDash_token_getElem2 secret
        (match (splitDash flagId.data)[1]? with
          | none => JSNum.nan
          | some cs => jsToNumber ⟨cs⟩)
      rw [← createFlagId_some hc] at h3
      rw [List.getElem?_eq_getElem h3] at he
      exact absurd he (by simp))]

theorem deleteHandler_shift (secret p₁ p₂ rest : String) (st : List ℚ)
    (h1 : dashFree p₁.data = true) (h2 : dashFree p₂.data = true) :
    deleteFlagHandler secret (p₁ ++ "-" ++ rest) st =
      deleteFlagHandler secret (p₂ ++ "-" ++ rest) st := by
  unfold deleteFlagHandler
  dsimp only
  have hd : ∀ p : String, dashFree p.data = true →
      splitDash ((p ++ "-" ++ rest)).data = p.data :: splitDash rest.data := by
    intro p hp
    have : (p ++ "-" ++ rest).data = p.data ++ '-' :: rest.data := by
      simp only [String.data_append, List.append_assoc]
      rfl
    rw [this, splitDash_append _ _ hp]
  rw [hd p₁ h1, hd p₂ h2]
  simp only [List.getElem?_cons_succ]

/-! ## Time-shape facts -/

theorem natToString_all_digits (n : ℕ) : (natToString n).data.all isDigitCh = true :=
  natDigits_digits n

set_option maxRecDepth 4000 in
theorem twoDigitsB_pad (n : ℕ) (h : n < 100) :
    twoDigitsB (padStart 2 '0' (natToString n)) = true := by
  revert h
  revert n
  decide

set_option maxRecDepth 40000 in
theorem threeDigitsB_pad (n : ℕ) (h : n < 1000) :
    threeDigitsB (padStart 3 '0' (natToString n)) = true := by
  revert h
  revert n
  decide

theorem twoDigitsB_elim {s : String} (h : twoDigitsB s = true) :
    ∃ a b, s.data = [a, b] ∧ isDigitCh a = true ∧ isDigitCh b = true := by
  unfold twoDigitsB at h
  rcases hd : s.data with _ | ⟨a, _ | ⟨b, _ | ⟨c, l⟩⟩⟩ <;> rw [hd] at h
  · simp at h
  · simp at h
  · have h2 : (isDigitCh a && isDigitCh b) = true := h
    simp only [Bool.and_eq_true] at h2
    exact ⟨a, b, rfl, h2.1, h2.2⟩
  · simp at h

theorem threeDigitsB_elim {s : String} (h : threeDigitsB s = true) :
    ∃ a b c, s.data = [a, b, c] ∧ isDigitCh a = true ∧ isDigitCh b = true ∧
      isDigitCh c = true := by
  unfold threeDigitsB at h
  rcases hd : s.data with _ | ⟨a, _ | ⟨b, _ | ⟨c, _ | ⟨d, l⟩⟩⟩⟩ <;> rw [hd] at h
  · simp at h
  · simp at h
  · simp at h
  · have h2 : (isDigitCh a && isDigitCh b && isDigitCh c) = true := h
    simp only [Bool.and_eq_true] at h2
    exact ⟨a, b, c, rfl, h2.1.1, h2.1.2, h2.2⟩
  · simp at h

theorem isTimeShapeL_build (hs : List Char) (m1 m2 s1 s2 x1 x2 x3 : Char)
    (hall : hs.all isDigitCh = true) (hlen : 2 ≤ hs.length)
    (hm1 : isDigitCh m1 = true) (hm2 : isDigitCh m2 = true)
    (hs1 : isDigitCh s1 = true) (hs2 : isDigitCh s2 = true)
    (hx1 : isDigitCh x1 = true) (hx2 : isDigitCh x2 = true) (hx3 : isDigitCh x3 = true) :
    isTimeShapeL (hs ++ ':' :: m1 :: m2 :: ':' :: s1 :: s2 :: '.' :: x1 :: x2 :: x3 :: []) =
      true := by
  unfold isTimeShapeL
  rw [span_append_of_all hs _ hall (by decide)]
  simp [hlen, hm1, hm2, hs1, hs2, hx1, hx2, hx3]

theorem formatTime_shape_of_nonneg (q : ℚ) (hq : 0 ≤ q) :
    isTimeShape (formatTime q) = true := by
  have hm0 : (0 : ℚ) < 3600 := by norm_num
  have h60 : (0 : ℚ) < 60 := by norm_num
  have h1000 : (0 : ℚ) < 1000 := by norm_num
  have hmn : 0 ≤ ⌊jsMod q 3600 / 60⌋ :=
    Int.floor_nonneg.mpr (div_nonneg (jsMod_nonneg hq hm0) h60.le)
  have hmlt : ⌊jsMod q 3600 / 60⌋ < 60 := by
    apply Int.floor_lt.mpr
    push_cast
    rw [div_lt_iff₀ h60]
    calc jsMod q 3600 < 3600 := jsMod_lt hq hm0
    _ = 60 * 60 := by norm_num
  have hsn : 0 ≤ ⌊jsMod q 60⌋ := Int.floor_nonneg.mpr (jsMod_nonneg hq h60)
  have hslt : ⌊jsMod q 60⌋ < 60 := by
    apply Int.floor_lt.mpr
    push_cast
    exact jsMod_lt hq h60
  have hxn : 0 ≤ ⌊jsMod (q * 1000) 1000⌋ :=
    Int.floor_nonneg.mpr (jsMod_nonneg (by positivity) h1000)
  have hxlt : ⌊jsMod (q * 1000) 1000⌋ < 1000 := by
    apply Int.floor_lt.mpr
    push_cast
    exact jsMod_lt (by positivity) h1000
  have hhn : 0 ≤ ⌊q / 3600⌋ := Int.floor_nonneg.mpr (by positivity)
  obtain ⟨m1, m2, hmdata, hm1, hm2⟩ :=
    twoDigitsB_elim (twoDigitsB_pad (⌊jsMod q 3600 / 60⌋).toNat (by omega))
  obtain ⟨s1, s2, hsdata, hs1, hs2⟩ :=
    twoDigitsB_elim (twoDigitsB_pad (⌊jsMod q 60⌋).toNat (by omega))
  obtain ⟨x1, x2, x3, hxdata, hx1, hx2, hx3⟩ :=
    threeDigitsB_elim (threeDigitsB_pad (⌊jsMod (q * 1000) 1000⌋).toNat (by omega))
  unfold formatTime
  rw [intToString_nonneg _ hhn, intToString_nonneg _ hmn, intToString_nonneg _ hsn,
    intToString_nonneg _ hxn]
  unfold isTimeShape
  have hd : (padStart 2 '0' (natToString (⌊q / 3600⌋).toNat) ++ ":" ++
      padStart 2 '0' (natToString (⌊jsMod q 3600 / 60⌋).toNat) ++ ":" ++
      padStart 2 '0' (natToString (⌊jsMod q 60⌋).toNat) ++ "." ++
      padStart 3 '0' (natToString (⌊jsMod (q * 1000) 1000⌋).toNat)).data
      = (padStart 2 '0' (natToString (⌊q / 3600⌋).toNat)).data ++
        ':' :: m1 :: m2 :: ':' :: s1 :: s2 :: '.' :: x1 :: x2 :: x3 :: [] := by
    simp only [String.data_append, hmdata, hsdata, hxdata, List.append_assoc,
      List.cons_append, List.nil_append]
  rw [hd]
  exact isTimeShapeL_build _ m1 m2 s1 s2 x1 x2 x3
    (padStart_all 2 (by decide) (natToString_all_digits _))
    (by rw [padStart_length]; exact le_max_left _ _)
    hm1 hm2 hs1 hs2 hx1 hx2 hx3

/-! ## `parseYouTubeId` facts -/

theorem word_not_ws {c : Char} (h : isWordChar c = true) : jsWsChar c = false := by
  cases hw : jsWsChar c with
  | false => rfl
  | true =>
    simp only [jsWsChar, Bool.or_eq_true, beq_iff_eq] at hw
    rcases hw with ((((((rfl | rfl) | rfl) | rfl) | rfl) | rfl) | rfl) | rfl <;>
      exact absurd h (by decide)

theorem word_not_quote {c : Char} (h : isWordChar c = true) :
    ¬(c = Char.ofNat 34 ∨ c = Char.ofNat 39) := by
  rintro (rfl | rfl) <;> exact absurd h (by decide)

theorem stripLit_append (p l : List Char) : stripLit p (p ++ l) = some l := by
  induction p with
  | nil => rfl
  | cons c p ih =>
    show stripLit (c :: p) (c :: (p ++ l)) = some l
    rw [stripLit, if_pos rfl, ih]

theorem matchYtAt_none_of_not_lit (cs : List Char) (h : litAt youtubeKey cs = false) :
    matchYtAt cs = none := by
  unfold litAt at h
  unfold matchYtAt
  cases hopt : stripLit youtubeKey cs with
  | none => rfl
  | some r =>
    rw [hopt] at h
    simp at h

theorem findYt_none (l : List Char) (h : hasYtKey l = false) : findYt l = none := by
  induction l with
  | nil => rfl
  | cons c cs ih =>
    rw [hasYtKey, Bool.or_eq_false_iff] at h
    rw [findYt, matchYtAt_none_of_not_lit _ h.1, ih h.2]

theorem findYt_append_of_no_key (pre suffix : List Char)
    (h : ∀ i, i < pre.length → litAt youtubeKey ((pre ++ suffix).drop i) = false) :
    findYt (pre ++ suffix) = findYt suffix := by
  induction pre with
  | nil => rfl
  | cons c pre ih =>
    show findYt (c :: (pre ++ suffix)) = _
    rw [findYt, matchYtAt_none_of_not_lit _ (by simpa using h 0 (by simp))]
    exact ih (fun i hi => by simpa using h (i + 1) (by simpa using hi))

theorem tokenAt_build (tok post : List Char) (hne : tok ≠ [])
    (hall : tok.all isWordChar = true)
    (hpost : match post with | [] => True | c :: _ => isWordChar c = false) :
    tokenAt (tok ++ post) = some tok := by
  unfold tokenAt
  have ht : (tok ++ post).takeWhile isWordChar = tok := by
    cases post with
    | nil => rw [List.append_nil, takeWhile_eq_self_of_all tok hall]
    | cons c rest => exact takeWhile_append_of_all tok rest hall hpost
  rw [ht, if_neg hne]

theorem matchYtAt_noquote (ws tok post : List Char)
    (hws : ws.all jsWsChar = true)
    (hne : tok ≠ []) (hall : tok.all isWordChar = true)
    (hpost : match post with | [] => True | c :: _ => isWordChar c = false) :
    matchYtAt (youtubeKey ++ (ws ++ (tok ++ post))) = some tok := by
  unfold matchYtAt
  rw [stripLit_append]
  dsimp only
  rcases tok with _ | ⟨t0, tr⟩
  · exact absurd rfl hne
  have htword : isWordChar t0 = true := by
    simp only [List.all_cons, Bool.and_eq_true] at hall
    exact hall.1
  rw [show (t0 :: tr) ++ post = t0 :: (tr ++ post) from rfl,
    dropWhile_append_of_all ws _ hws (word_not_ws htword)]
  dsimp only
  rw [if_neg (word_not_quote htword)]
  exact tokenAt_build (t0 :: tr) post hne hall hpost

theorem matchYtAt_quote (qc : Char) (ws tok post : List Char)
    (hqc : qc = Char.ofNat 34 ∨ qc = Char.ofNat 39)
    (hws : ws.all jsWsChar = true)
    (hne : tok ≠ []) (hall : tok.all isWordChar = true)
    (hpost : match post with | [] => True | c :: _ => isWordChar c = false) :
    matchYtAt (youtubeKey ++ (ws ++ (qc :: (tok ++ post)))) = some tok := by
  unfold matchYtAt
  rw [stripLit_append]
  dsimp only
  have hqw : jsWsChar qc = false := by
    rcases hqc with rfl | rfl <;> decide
  rw [dropWhile_append_of_all ws _ hws hqw]
  dsimp only
  rw [if_pos hqc, tokenAt_build tok post hne hall hpost]
  rfl

theorem findYt_key_match (rest : List Char) (t : List Char)
    (h : matchYtAt (youtubeKey ++ rest) = some t) :
    findYt (youtubeKey ++ rest) = some t := by
  show findYt ('y' :: ("outube:".data ++ rest)) = some t
  rw [findYt]
  rw [show matchYtAt ('y' :: ("outube:".data ++ rest)) = some t from h]

/-! ## The claims -/

/-- C1 (amended): the round-trip `verify(mint(id)) == id` holds for every
non-negative integer `id` under every non-empty secret: `createFlagId`
produces `flag-<id>-<sig>`, and presenting that token to the DELETE handler
succeeds and deletes exactly the rows with that id.  (As stated over all
integers the claim is false — see the counterexample at `id = -1`.) -/
theorem claim_C1 (secret : String) (id : ℕ) (st : List ℚ) (hs : secret ≠ "") :
    createFlagId secret (JSNum.fin (id : ℚ)) =
      some ("flag-" ++ natToString id ++ "-" ++ flagSig secret (natToString id)) ∧
    deleteFlagHandler secret
        ("flag-" ++ natToString id ++ "-" ++ flagSig secret (natToString id)) st =
      (true, jsDeleteRecords st (JSNum.fin (id : ℚ))) := by
  constructor
  · unfold createFlagId
    rw [if_neg hs, jsNumToString_natCast]
  · rw [deleteHandler_wellformed secret (natToString id) (flagSig secret (natToString id)) st hs
      (dashFree_of_digits (natToString_all_digits id)) (flagSig_dashFree _ _)
      (by
        rw [jsToNumber_natToString, jsNumToString_natCast]
        exact dashFree_of_digits (natToString_all_digits id)),
      jsToNumber_natToString, jsNumToString_natCast, if_pos rfl]

/-- C1 witness: the round-trip at secret `"k"`, id `7`, store `[7, 9]`. -/
theorem claim_C1_witness :
    createFlagId "k" (JSNum.fin ((7 : ℕ) : ℚ)) =
      some ("flag-" ++ natToString 7 ++ "-" ++ flagSig "k" (natToString 7)) ∧
    deleteFlagHandler "k" ("flag-" ++ natToString 7 ++ "-" ++ flagSig "k" (natToString 7))
        [(7 : ℚ), 9] = (true, jsDeleteRecords [(7 : ℚ), 9] (JSNum.fin ((7 : ℕ) : ℚ))) :=
  claim_C1 "k" 7 [(7 : ℚ), 9] (by decide)

set_option maxRecDepth 20000 in
/-- C1 counterexample: at `id = -1` (an integer) the minted token is
`flag--1-<sig>`; splitting it on `-` misparses (`id` part `""`, signature
part `"1"`), so the DELETE handler rejects it and `verify(mint(-1))` does not
yield `-1`. -/
theorem claim_C1_counterexample :
    createFlagId "s" (JSNum.fin (-1 : ℚ)) = some ("flag--1-" ++ flagSig "s" "-1") ∧
    deleteFlagHandler "s" ("flag--1-" ++ flagSig "s" "-1") [(-1 : ℚ)] =
      (false, [(-1 : ℚ)]) := by
  constructor <;> decide

/-- C2 (amended): the DELETE handler rejects without touching the store
whenever the token splits into fewer than three parts, and whenever the token
is `flag-<id>-<sig>` with a non-numeric id part and a signature different
from the one freshly computed for `NaN` (the `Number` coercion of a
non-numeric id).  Tokens with more than three parts are not rejected for
arity — see the counterexample. -/
theorem claim_C2 :
    (∀ (secret flagId : String) (st : List ℚ), (splitDash flagId.data).length < 3 →
      deleteFlagHandler secret flagId st = (false, st)) ∧
    (∀ (secret idStr sig : String) (st : List ℚ), secret ≠ "" →
      dashFree idStr.data = true → dashFree sig.data = true →
      jsToNumber idStr = JSNum.nan → sig ≠ flagSig secret "NaN" →
      deleteFlagHandler secret ("flag-" ++ idStr ++ "-" ++ sig) st = (false, st)) := by
  constructor
  · exact fun secret flagId st h => deleteHandler_short secret flagId st h
  · intro secret idStr sig st hs h1 h2 hnan hsig
    rw [deleteHandler_wellformed secret idStr sig st hs h1 h2 (by rw [hnan]; decide), hnan,
      show jsNumToString JSNum.nan = "NaN" from rfl, if_neg hsig]

set_option maxRecDepth 20000 in
/-- C2 witness: a one-part token is rejected with the store kept, and so is
`flag-x-y` (non-numeric id, wrong signature). -/
theorem claim_C2_witness :
    deleteFlagHandler "k" "justoneword" [(5 : ℚ)] = (false, [(5 : ℚ)]) ∧
    deleteFlagHandler "k" ("flag-" ++ "x" ++ "-" ++ "y") [(5 : ℚ)] = (false, [(5 : ℚ)]) :=
  ⟨claim_C2.1 "k" "justoneword" [(5 : ℚ)] (by decide),
   claim_C2.2 "k" "x" "y" [(5 : ℚ)] (by decide) (by decide) (by decide) (by decide)
     (by decide)⟩

set_option maxRecDepth 20000 in
/-- C2 counterexample: the four-part token `flag-1-<sig(1)>-x` does not match
the three-part structure, yet the handler accepts it and deletes row 1 — so
"fails whenever the structure does not match the three hyphen-delimited
parts" is false. -/
theorem claim_C2_counterexample :
    (splitDash ("flag-1-" ++ flagSig "s" "1" ++ "-x").data).length = 4 ∧
    deleteFlagHandler "s" ("flag-1-" ++ flagSig "s" "1" ++ "-x") [(1 : ℚ)] = (true, []) := by
  constructor <;> decide

/-- C3: the delete operation is atomic on error — whenever the DELETE handler
fails (returns no `{ ok: true }`), the record store is left exactly as it
was; no `deleteRecords` call is issued. -/
theorem claim_C3 (secret flagId : String) (st : List ℚ)
    (h : (deleteFlagHandler secret flagId st).1 = false) :
    (deleteFlagHandler secret flagId st).2 = st := by
  revert h
  unfold deleteFlagHandler
  dsimp only
  cases createFlagId secret
      (match (splitDash flagId.data)[1]? with
        | none => JSNum.nan
        | some cs => jsToNumber ⟨cs⟩) with
  | none => intro _; rfl
  | some tok =>
    dsimp only
    by_cases hif : (splitDash flagId.data)[2]? = (splitDash tok.data)[2]?
    · rw [if_pos hif]
      intro h
      exact absurd h (by simp)
    · rw [if_neg hif]
      intro _
      rfl

/-- C3 witness: with the secret unset the request fails and the store `[3]`
is untouched. -/
theorem claim_C3_witness :
    (deleteFlagHandler "" "flag-1-x" [(3 : ℚ)]).1 = false ∧
    (deleteFlagHandler "" "flag-1-x" [(3 : ℚ)]).2 = [(3 : ℚ)] :=
  ⟨by decide, claim_C3 "" "flag-1-x" [(3 : ℚ)] (by decide)⟩

/-- C4: every minted token has the shape `flag-<id>-<signature>` where `<id>`
is the decimal representation of the integer id and `<signature>` is the
HMAC-SHA-256 of that decimal string under the secret, encoded as lowercase
hexadecimal (64 hex characters). -/
theorem claim_C4 (secret : String) (id : ℤ) (hs : secret ≠ "") :
    createFlagId secret (JSNum.fin (id : ℚ)) =
      some ("flag-" ++ intToString id ++ "-" ++
        hexEncode (hmacSha256 (strBytes secret) (strBytes (intToString id)))) ∧
    (flagSig secret (intToString id)).data.all isLowerHexCh = true ∧
    (flagSig secret (intToString id)).data.length = 64 := by
  refine ⟨?_, flagSig_all_lowerHex _ _, flagSig_length _ _⟩
  unfold createFlagId
  rw [if_neg hs, jsNumToString_intCast]
  rfl

/-- C4 witness: the token shape at secret `"k"`, id `-2`. -/
theorem claim_C4_witness :
    createFlagId "k" (JSNum.fin ((-2 : ℤ) : ℚ)) =
      some ("flag-" ++ intToString (-2) ++ "-" ++
        hexEncode (hmacSha256 (strBytes "k") (strBytes (intToString (-2))))) ∧
    (flagSig "k" (intToString (-2))).data.all isLowerHexCh = true ∧
    (flagSig "k" (intToString (-2))).data.length = 64 :=
  claim_C4 "k" (-2) (by decide)

/-- C5: minting is deterministic — two calls of `createFlagId` with the same
secret and the same id return the identical token. -/
theorem claim_C5 (secret : String) (id₁ id₂ : JSNum) (h : id₁ = id₂) :
    createFlagId secret id₁ = createFlagId secret id₂ := by
  rw [h]

/-- C5 witness: two runs at secret `"k"`, id `4`. -/
theorem claim_C5_witness :
    createFlagId "k" (JSNum.fin 4) = createFlagId "k" (JSNum.fin 4) :=
  claim_C5 "k" (JSNum.fin 4) (JSNum.fin 4) rfl

/-- C6 (amended): for every *non-negative* client-supplied millisecond
offset, the timestamp the POST handler stores is a digits-only
`H⁺:MM:SS.mmm` string (hours at least two digits, unbounded — there is no
wrap at 24 h, hours simply keep growing).  For negative offsets the claim as
stated fails: the components come out negative — see the counterexample. -/
theorem claim_C6 (event slug lang : String) (tsMs : ℚ) (text : String) (h : 0 ≤ tsMs) :
    isTimeShape (postFlagRow event slug lang tsMs text).timestamp = true := by
  show isTimeShape (formatTime (tsMs / 1000)) = true
  exact formatTime_shape_of_nonneg _ (by positivity)

/-- C6 witness: the stored timestamp for a 65000 ms flag is well-shaped. -/
theorem claim_C6_witness :
    isTimeShape (postFlagRow "e" "s" "l" 65000 "typo").timestamp = true :=
  claim_C6 "e" "s" "l" 65000 "typo" (by norm_num)

set_option maxRecDepth 20000 in
/-- C6 counterexample: the accepted offset `-1000` ms is stored as
`-1:-1:-1.000`, which is not a non-negative `HH:MM:SS.mmm` string. -/
theorem claim_C6_counterexample :
    (postFlagRow "e" "s" "l" (-1000) "typo").timestamp = "-1:-1:-1.000" ∧
    isTimeShape (postFlagRow "e" "s" "l" (-1000) "typo").timestamp = false := by
  constructor <;> decide

set_option maxRecDepth 20000 in
/-- C7: the three cited equations of the time formatter (input in seconds):
`format(0) = "00:00:00.000"`, `format(3661.5) = "01:01:01.500"` and
`format(86399.999) = "23:59:59.999"`. -/
theorem claim_C7 :
    formatTime 0 = "00:00:00.000" ∧ formatTime (3661.5 : ℚ) = "01:01:01.500" ∧
    formatTime (86399.999 : ℚ) = "23:59:59.999" := by
  refine ⟨?_, ?_, ?_⟩ <;> decide

/-- C8: video-id extraction.  (1) Content with no `youtube:` key fails with
the `MalformedContentError` message.  (2) Content of the form
`pre ++ youtube: ++ whitespace ++ optional quote ++ token ++ post` — with no
`youtube:` occurrence starting inside `pre`, a non-empty word-character
token, and `post` not starting with a word character — yields exactly that
token. -/
theorem claim_C8 :
    (∀ content : String, hasYtKey content.data = false →
      parseYouTubeId content = .error "YouTube ID not found in content") ∧
    (∀ pre ws q tok post : List Char,
      (∀ i, i < pre.length →
        litAt youtubeKey ((pre ++ (youtubeKey ++ (ws ++ (q ++ (tok ++ post))))).drop i) =
          false) →
      ws.all jsWsChar = true →
      (q = [] ∨ q = [Char.ofNat 34] ∨ q = [Char.ofNat 39]) →
      tok ≠ [] → tok.all isWordChar = true →
      (match post with | [] => True | c :: _ => isWordChar c = false) →
      parseYouTubeId ⟨pre ++ (youtubeKey ++ (ws ++ (q ++ (tok ++ post))))⟩ = .ok ⟨tok⟩) := by
  constructor
  · intro content h
    unfold parseYouTubeId
    rw [findYt_none content.data h]
  · intro pre ws q tok post hpre hws hq hne hall hpost
    unfold parseYouTubeId
    rw [show (⟨pre ++ (youtubeKey ++ (ws ++ (q ++ (tok ++ post))))⟩ : String).data
        = pre ++ (youtubeKey ++ (ws ++ (q ++ (tok ++ post)))) from rfl,
      findYt_append_of_no_key _ _ hpre]
    rcases hq with rfl | rfl | rfl
    · simp only [List.nil_append]
      rw [findYt_key_match _ tok (matchYtAt_noquote ws tok post hws hne hall hpost)]
    · simp only [List.singleton_append]
      rw [findYt_key_match _ tok
        (matchYtAt_quote (Char.ofNat 34) ws tok post (Or.inl rfl) hws hne hall hpost)]
    · simp only [List.singleton_append]
      rw [findYt_key_match _ tok
        (matchYtAt_quote (Char.ofNat 39) ws tok post (Or.inr rfl) hws hne hall hpost)]

/-- C8 witness: `"no video here"` fails; a content with
`youtube: "abc123"` after a prefix yields `abc123`. -/
theorem claim_C8_witness :
    parseYouTubeId "no video here" = .error "YouTube ID not found in content" ∧
    parseYouTubeId ⟨"title: x\n".data ++ (youtubeKey ++ (" ".data ++ ("\"".data ++
      ("abc123".data ++ "\" rest".data))))⟩ = .ok ⟨"abc123".data⟩ :=
  ⟨claim_C8.1 "no video here" (by decide),
   claim_C8.2 "title: x\n".data " ".data "\"".data "abc123".data "\" rest".data
     (by decide) (by decide) (by decide) (by decide) (by decide) (by decide)⟩

/-- C9: token verification never inspects the type-tag segment — for every
hyphen-free prefix `p`, integer `id` and the correct signature for `id`, the
DELETE handler treats `p-<id>-<sig>` exactly as the canonical
`flag-<id>-<sig>` (same outcome and same resulting store). -/
theorem claim_C9 (secret p : String) (id : ℤ) (st : List ℚ)
    (hp : dashFree p.data = true) :
    deleteFlagHandler secret
        (p ++ "-" ++ (intToString id ++ "-" ++ flagSig secret (intToString id))) st =
      deleteFlagHandler secret
        ("flag" ++ "-" ++ (intToString id ++ "-" ++ flagSig secret (intToString id))) st :=
  deleteHandler_shift secret p "flag" _ st hp (by decide)

/-- C9 witness: prefix `"note"` behaves as `"flag"` at secret `"k"`, id 3. -/
theorem claim_C9_witness :
    deleteFlagHandler "k"
        ("note" ++ "-" ++ (intToString 3 ++ "-" ++ flagSig "k" (intToString 3))) [] =
      deleteFlagHandler "k"
        ("flag" ++ "-" ++ (intToString 3 ++ "-" ++ flagSig "k" (intToString 3))) [] :=
  claim_C9 "k" "note" 3 [] (by decide)

/-- C10: the DELETE outcome is independent of the `event`, `slug` and `lang`
path parameters — the route reads only `flagId`, so any two parameter
triples give the same verification result and the same store. -/
theorem claim_C10 (secret e₁ s₁ l₁ e₂ s₂ l₂ flagId : String) (st : List ℚ) :
    deleteRoute secret e₁ s₁ l₁ flagId st = deleteRoute secret e₂ s₂ l₂ flagId st := rfl

end VCRS
